import Mathlib

/-!
Verification of the acquisition-orchestration and signal-conditioning core of
`automated_data_acquisitor`.

The Python source is shallowly embedded:
* sample matrices are `List (List ℚ)` (rows = samples, columns = channels), the
  layout produced by `np.array(list_of_data).T` in `run_acquisition`;
* Python `int(x)` truncation toward zero is `pyInt`;
* Python `raise` is `Except.error`;
* the real-valued statistics pipeline of `detect_dissimilar_channels` is
  embedded over `Option ℝ`, with `none` playing the role of IEEE NaN; in this
  pipeline a zero denominator always comes with a zero numerator, so division
  by zero yielding `none` matches the `0.0 / 0.0 = nan` that NumPy produces.
-/

/-- File formats from `data_classes/file_format.py`. -/
inductive FileFormat where
  | CSV
  | PQT
  deriving DecidableEq

/-- Acquisition parameters, from `data_classes/acquisition_parameters.py`
(`AcqParams`).  Float fields are embedded as `ℚ`, channel numbers as `ℕ`. -/
structure AcqParams where
  card_identifiers : List String := ["/dev/spcm0", "/dev/spcm1"]
  sync_identifier : String := "sync0"
  card_timeout : ℚ := 5
  trigger_level : ℚ := 1/2
  trigger_channel_no : ℕ := 0
  emission_on_channel_no : ℕ := 1
  target_file_name : String := "data.pqt"
  sample_rate : ℚ := 2
  data_format : FileFormat := FileFormat.PQT
  acquisition_duration : ℚ := 10
  post_acquisition_duration : ℚ := 2
  pre_acquisition_duration : ℚ := 2
  sensitivity_threshold : ℚ := 2
  cur_version : ℤ := 2
  with_crop : Bool := true
  with_plot : Bool := true
  with_channel_check : Bool := false

/-- Python `int(x)`: truncation toward zero. -/
def pyInt (q : ℚ) : ℤ := if 0 ≤ q then ⌊q⌋ else ⌈q⌉

/-- The thresholded trigger channel of `crop_data`:
`(channel_data > trigger_level).astype(int)` where
`channel_data = data[:, trigger_channel_no]`. -/
def triggerBools (data : List (List ℚ)) (p : AcqParams) : List ℤ :=
  data.map (fun row => if row.getD p.trigger_channel_no 0 > p.trigger_level then 1 else 0)

/-- `np.diff`: consecutive differences `l[i+1] - l[i]`. -/
def diffList (l : List ℤ) : List ℤ :=
  List.zipWith (fun a b => a - b) l.tail l

/-- The crossing indices of `crop_data`:
`np.where(np.diff((channel_data > trigger_level).astype(int)) != 0)[0]`. -/
def crossings (data : List (List ℚ)) (p : AcqParams) : List ℕ :=
  (((diffList (triggerBools data p)).enum).filter (fun q => q.2 ≠ 0)).map Prod.fst

/-- `crop_data` from `helper_functions.py` (lines 201-248).  The slice
`data[start_index:end_index, :]` is embedded as drop-then-take; the indices the
source produces under the claims' inputs are nonnegative, which is the regime
this embedding covers.  Note the source clamps `end_index` with
`data.shape[1]`, the number of channels of the (samples x channels) matrix. -/
def crop_data (data : List (List ℚ)) (p : AcqParams) :
    Except String (List (List ℚ)) :=
  if p.with_crop = false then Except.ok data else
  match crossings data p with
  | [] =>
      Except.error
        "No trigger crossings found in the data. Please check the trigger level."
  | c :: rest =>
      let first_cross : ℤ := (c : ℤ)
      let last_cross : ℤ := ((c :: rest).getLast (by simp) : ℤ)
      let pre_trigger_samples : ℤ :=
        pyInt (p.pre_acquisition_duration * p.sample_rate)
      let post_trigger_samples : ℤ :=
        pyInt (p.post_acquisition_duration * p.sample_rate)
      let start_index : ℤ :=
        if first_cross > pre_trigger_samples then first_cross - pre_trigger_samples
        else 0
      let shape1 : ℤ := ((data.headD []).length : ℤ)
      let end_index : ℤ :=
        if last_cross + post_trigger_samples < shape1 then
          last_cross + post_trigger_samples
        else shape1
      Except.ok ((data.drop start_index.toNat).take (end_index - start_index).toNat)

/-- With cropping disabled, `crop_data` is the identity (claim C4). -/
theorem crop_data_identity_without_crop (data : List (List ℚ)) (p : AcqParams)
    (h : p.with_crop = false) : crop_data data p = Except.ok data := by
  simp [crop_data, h]

/-- Witness for `crop_data_identity_without_crop` at a concrete input. -/
theorem crop_data_identity_without_crop_witness :
    ({ with_crop := false : AcqParams }.with_crop = false) ∧
      crop_data [[(1 : ℚ)], [(2 : ℚ)]] { with_crop := false } =
        Except.ok [[(1 : ℚ)], [(2 : ℚ)]] :=
  ⟨rfl, crop_data_identity_without_crop _ _ rfl⟩

/-- With cropping enabled and no trigger crossings, `crop_data` fails with the
no-trigger-activity `ValueError` and returns no matrix (claim C3). -/
theorem crop_data_no_crossings_error (data : List (List ℚ)) (p : AcqParams)
    (hc : p.with_crop = true) (h : crossings data p = []) :
    crop_data data p =
      Except.error
        "No trigger crossings found in the data. Please check the trigger level." := by
  simp [crop_data, hc, h]

/-- Witness for `crop_data_no_crossings_error`: a constant waveform has no
crossings. -/
theorem crop_data_no_crossings_error_witness :
    (({ trigger_level := 2 } : AcqParams).with_crop = true ∧
        crossings [[(0 : ℚ)], [(0 : ℚ)], [(0 : ℚ)]] { trigger_level := 2 } = []) ∧
      crop_data [[(0 : ℚ)], [(0 : ℚ)], [(0 : ℚ)]] { trigger_level := 2 } =
        Except.error
          "No trigger crossings found in the data. Please check the trigger level." :=
  ⟨⟨rfl, by decide⟩, crop_data_no_crossings_error _ _ rfl (by decide)⟩

/-- Evaluation of `crop_data` at a concrete matrix of 12 samples x 2 channels
with crossings at indices 2 and 8 and `pre_samples = post_samples = 1`
(claim C1).  The source clamps `end_index` with `data.shape[1] = 2`, the
channel count, so the returned window is `[1, 2)` (a single row) instead of
the window `[1, min 12 (8+1)) = [1, 9)` of eight rows. -/
theorem crop_data_end_clamped_by_channel_count :
    crossings
        [[0, 0], [0, 0], [0, 0], [3, 0], [3, 0], [3, 0],
         [3, 0], [3, 0], [3, 0], [0, 0], [0, 0], [0, 0]]
        { trigger_level := 2, pre_acquisition_duration := 1,
          post_acquisition_duration := 1, sample_rate := 1 } = [2, 8] ∧
      crop_data
        [[0, 0], [0, 0], [0, 0], [3, 0], [3, 0], [3, 0],
         [3, 0], [3, 0], [3, 0], [0, 0], [0, 0], [0, 0]]
        { trigger_level := 2, pre_acquisition_duration := 1,
          post_acquisition_duration := 1, sample_rate := 1 } =
        Except.ok [[(0 : ℚ), 0]] := by
  constructor
  · norm_num [crossings, triggerBools, diffList, List.enum, List.enumFrom,
      List.filter]
  · norm_num [crop_data, crossings, triggerBools, diffList, pyInt, List.enum,
      List.enumFrom, List.filter]

/-- `MAX_SAMPLE_NUMBER` from `__init__.py`: `64 * units.MS`, i.e. 64e6 samples
in base units. -/
def MAX_SAMPLE_NUMBER : ℤ := 64000000

/-- The per-device effective sample count of `run_acquisition` (lines
233-242): `int(int(pre + main + post) * sample_rate * 1e6 * units.S)`, with
`sample_rate` in MHz and `units.S` of magnitude one. -/
def num_samples (p : AcqParams) : ℤ :=
  pyInt ((pyInt (p.pre_acquisition_duration + p.acquisition_duration +
    p.post_acquisition_duration) : ℚ) * p.sample_rate * 1000000)

/-- Modelled from the spec's words (for comparison with `num_samples`): the
effective sample count as `round((pre + main + post) x sample_rate)`, with the
rate in samples per second. -/
def spec_num_samples (p : AcqParams) : ℤ :=
  round ((p.pre_acquisition_duration + p.acquisition_duration +
    p.post_acquisition_duration) * (p.sample_rate * 1000000))

/-- The sample window the coordinator arms for one device, from
`run_acquisition` lines 233-275: the sample count, the total and post-trigger
durations handed to `data_transfer.duration`, and whether the clamping warning
was logged. -/
structure SampleWindow where
  numSamples : ℤ
  acq_duration : ℚ
  post_acq_duration : ℚ
  clampWarning : Bool
  deriving DecidableEq

/-- The clamping logic of `run_acquisition` (lines 243-275): if the computed
sample count exceeds `MAX_SAMPLE_NUMBER`, clamp it to the ceiling, recompute
the total duration as `ceiling / (sample_rate * 1e6)` and the post-trigger
duration as that total minus the pre-trigger duration, and log a warning;
otherwise keep the requested durations. -/
def run_acquisition_sample_window (p : AcqParams) : SampleWindow :=
  if num_samples p > MAX_SAMPLE_NUMBER then
    { numSamples := MAX_SAMPLE_NUMBER
      acq_duration := (MAX_SAMPLE_NUMBER : ℚ) / (p.sample_rate * 1000000)
      post_acq_duration :=
        (MAX_SAMPLE_NUMBER : ℚ) / (p.sample_rate * 1000000) -
          p.pre_acquisition_duration
      clampWarning := true }
  else
    { numSamples := num_samples p
      acq_duration := p.pre_acquisition_duration + p.acquisition_duration +
        p.post_acquisition_duration
      post_acq_duration := p.acquisition_duration + p.post_acquisition_duration
      clampWarning := false }

/-- A plan on which the code's sample count and the spec's
`round((pre + main + post) x sample_rate)` differ (claim C2). -/
def truncCxParams : AcqParams :=
  { pre_acquisition_duration := 1/2, acquisition_duration := 1/2,
    post_acquisition_duration := 1/2, sample_rate := 2 }

/-- Counterexample to claim C2: with durations `0.5 + 0.5 + 0.5` seconds at
2 MHz, the source computes `int(int(1.5) * 2e6) = 2000000` samples, while
`round(1.5 x 2e6) = 3000000`. -/
theorem num_samples_not_rounded :
    num_samples truncCxParams = 2000000 ∧
      spec_num_samples truncCxParams = 3000000 := by
  constructor
  · norm_num [num_samples, truncCxParams, pyInt]
  · rw [spec_num_samples, round_eq]
    norm_num [truncCxParams]

/-- Amended claim C2: for nonnegative durations and rate, the effective sample
count is the truncation `⌊⌊pre + main + post⌋ * sample_rate * 1e6⌋` (the
duration sum is truncated to whole seconds first, and nothing is rounded). -/
theorem num_samples_eq_floor (p : AcqParams)
    (h1 : 0 ≤ p.pre_acquisition_duration + p.acquisition_duration +
      p.post_acquisition_duration)
    (h2 : 0 ≤ p.sample_rate) :
    num_samples p =
      ⌊((⌊p.pre_acquisition_duration + p.acquisition_duration +
          p.post_acquisition_duration⌋ : ℚ) * p.sample_rate * 1000000)⌋ := by
  have hfl : (0 : ℚ) ≤ (⌊p.pre_acquisition_duration + p.acquisition_duration +
      p.post_acquisition_duration⌋ : ℚ) := by
    exact_mod_cast Int.floor_nonneg.mpr h1
  have houter : (0 : ℚ) ≤ (⌊p.pre_acquisition_duration + p.acquisition_duration +
      p.post_acquisition_duration⌋ : ℚ) * p.sample_rate * 1000000 := by
    have := mul_nonneg hfl h2
    nlinarith
  simp only [num_samples, pyInt, if_pos h1, if_pos houter]

/-- Witness for `num_samples_eq_floor` at the default parameters. -/
theorem num_samples_eq_floor_witness :
    ((0 : ℚ) ≤ ({} : AcqParams).pre_acquisition_duration +
        ({} : AcqParams).acquisition_duration +
        ({} : AcqParams).post_acquisition_duration ∧
      (0 : ℚ) ≤ ({} : AcqParams).sample_rate) ∧
      num_samples {} =
        ⌊((⌊({} : AcqParams).pre_acquisition_duration +
            ({} : AcqParams).acquisition_duration +
            ({} : AcqParams).post_acquisition_duration⌋ : ℚ) *
          ({} : AcqParams).sample_rate * 1000000)⌋ :=
  ⟨⟨by norm_num, by norm_num⟩, num_samples_eq_floor {} (by norm_num) (by norm_num)⟩

/-- A plan whose exact `(pre + main + post) x sample_rate` exceeds the ceiling
while the code's truncated sample count does not (claim C7). -/
def clampCxParams : AcqParams :=
  { pre_acquisition_duration := 0, acquisition_duration := 19/10,
    post_acquisition_duration := 0, sample_rate := 40 }

/-- Counterexample to claim C7 as stated: a plan of 1.9 s at 40 MHz requests
`1.9 x 40e6 = 76e6 > 64e6` samples, yet the source computes
`int(int(1.9) * 40e6) = 40e6`, does not clamp, logs no warning, and arms the
unadjusted duration whose sample product still exceeds the ceiling. -/
theorem sample_window_not_clamped_on_exact_overflow :
    (clampCxParams.pre_acquisition_duration + clampCxParams.acquisition_duration +
        clampCxParams.post_acquisition_duration) *
        (clampCxParams.sample_rate * 1000000) > (MAX_SAMPLE_NUMBER : ℚ) ∧
      (run_acquisition_sample_window clampCxParams).clampWarning = false ∧
      (run_acquisition_sample_window clampCxParams).numSamples ≠ MAX_SAMPLE_NUMBER ∧
      (run_acquisition_sample_window clampCxParams).acq_duration *
        (clampCxParams.sample_rate * 1000000) > (MAX_SAMPLE_NUMBER : ℚ) := by
  have hns : num_samples clampCxParams = 40000000 := by
    norm_num [num_samples, clampCxParams, pyInt]
  refine ⟨by norm_num [clampCxParams, MAX_SAMPLE_NUMBER], ?_, ?_, ?_⟩
  · simp [run_acquisition_sample_window, hns, MAX_SAMPLE_NUMBER]
  · simp [run_acquisition_sample_window, hns, MAX_SAMPLE_NUMBER]
  · rw [run_acquisition_sample_window, hns]
    norm_num [clampCxParams, MAX_SAMPLE_NUMBER]

/-- Amended claim C7: whenever the sample count the coordinator actually
computes (`int(int(pre+main+post) * rate * 1e6)`) exceeds the ceiling, the
count is clamped to the ceiling, the adjusted duration satisfies
`adjusted_duration x rate x 1e6 ≤ ceiling`, the pre-trigger duration is
preserved (total minus post-trigger equals the requested pre-trigger), and the
adjustment is only a logged warning, never an error. -/
theorem sample_window_clamped (p : AcqParams)
    (h : num_samples p > MAX_SAMPLE_NUMBER) (hr : 0 < p.sample_rate) :
    (run_acquisition_sample_window p).numSamples = MAX_SAMPLE_NUMBER ∧
      (run_acquisition_sample_window p).acq_duration *
        (p.sample_rate * 1000000) ≤ (MAX_SAMPLE_NUMBER : ℚ) ∧
      (run_acquisition_sample_window p).acq_duration -
        (run_acquisition_sample_window p).post_acq_duration =
        p.pre_acquisition_duration ∧
      (run_acquisition_sample_window p).clampWarning = true := by
  have hne : p.sample_rate * 1000000 ≠ 0 := by positivity
  simp only [run_acquisition_sample_window, if_pos h]
  refine ⟨trivial, ?_, by ring, trivial⟩
  rw [div_mul_cancel₀ _ hne]

/-- Witness for `sample_window_clamped`: a 104-second plan at 2 MHz requests
208e6 samples, beyond the 64e6 ceiling. -/
theorem sample_window_clamped_witness :
    (num_samples { acquisition_duration := 100 } > MAX_SAMPLE_NUMBER ∧
        (0 : ℚ) < ({ acquisition_duration := 100 } : AcqParams).sample_rate) ∧
      (run_acquisition_sample_window { acquisition_duration := 100 }).numSamples =
          MAX_SAMPLE_NUMBER ∧
        (run_acquisition_sample_window { acquisition_duration := 100 }).acq_duration *
          (({ acquisition_duration := 100 } : AcqParams).sample_rate * 1000000) ≤
          (MAX_SAMPLE_NUMBER : ℚ) ∧
        (run_acquisition_sample_window { acquisition_duration := 100 }).acq_duration -
          (run_acquisition_sample_window { acquisition_duration := 100 }).post_acq_duration =
          ({ acquisition_duration := 100 } : AcqParams).pre_acquisition_duration ∧
        (run_acquisition_sample_window { acquisition_duration := 100 }).clampWarning =
          true :=
  ⟨⟨by norm_num [num_samples, pyInt, MAX_SAMPLE_NUMBER], by norm_num⟩,
    sample_window_clamped _ (by norm_num [num_samples, pyInt, MAX_SAMPLE_NUMBER])
      (by norm_num)⟩

/-- The outcome of one Worker's `run` body, from
`card_classes/card_thread.py`: what the thread put on the shared exception
queue, the buffer it read, and the exception (if any) escaping `run`. -/
structure WorkerResult where
  enqueued : List String
  buffer : Option (List (List ℚ))
  raised : Option String
  deriving DecidableEq

/-- `CardThread.run` (card_thread.py lines 56-80): wait for DMA and read the
buffer; on any exception, put it on `ex_queue` and return if a queue was
provided, else re-raise.  The driver-side outcome of
`cmd(M2CMD_DATA_WAITDMA)` plus the buffer read is the `waitRead` argument. -/
def CardThread.run (hasQueue : Bool) (waitRead : Except String (List (List ℚ))) :
    WorkerResult :=
  match waitRead with
  | Except.ok b => { enqueued := [], buffer := some b, raised := none }
  | Except.error e =>
      if hasQueue then { enqueued := [e], buffer := none, raised := none }
      else { enqueued := [], buffer := none, raised := some e }

/-- The contents of the shared `exc_queue` after the join barrier of
`run_acquisition`, given every per-card outcome; in `run_acquisition` every
`CardThread` is constructed with the shared queue. -/
def excQueueAfterJoin (outcomes : List (Except String (List (List ℚ)))) :
    List String :=
  (outcomes.map (fun o => (CardThread.run true o).enqueued)).flatten

/-- The assembly step of `run_acquisition` (lines 336-351): for each card
buffer (channels x samples), each channel is unit-converted and collected, and
the channel-stacked matrix is transposed to (samples x channels).  `conv`
stands for `channels[0].convert_data`. -/
def assembleBuffers (conv : ℚ → ℚ) (buffers : List (List (List ℚ))) :
    List (List ℚ) :=
  ((buffers.map (fun b => b.map (fun ch => ch.map conv))).flatten).transpose

/-- The fan-in of `run_acquisition` (lines 325-351): join all workers, then
raise one aggregated `RuntimeError` if the shared queue is non-empty, and only
otherwise assemble the unified waveform. -/
def run_acquisition_fan_in (conv : ℚ → ℚ)
    (outcomes : List (Except String (List (List ℚ)))) :
    Except String (List (List ℚ)) :=
  if (excQueueAfterJoin outcomes).isEmpty then
    Except.ok (assembleBuffers conv
      (outcomes.filterMap (fun o => (CardThread.run true o).buffer)))
  else Except.error "Caught exception from thread during acquisition."

/-- Claim C8: if at least one worker's wait/read faults, no worker raises
across the thread boundary (each converts the fault to a report on the shared
queue), and the coordinator raises the one aggregated failure after the join,
producing no unified waveform. -/
theorem worker_fault_aggregated (conv : ℚ → ℚ)
    (outcomes : List (Except String (List (List ℚ))))
    (h : ∃ o ∈ outcomes, ∃ e, o = Except.error e) :
    (∀ o ∈ outcomes, (CardThread.run true o).raised = none) ∧
      run_acquisition_fan_in conv outcomes =
        Except.error "Caught exception from thread during acquisition." := by
  constructor
  · intro o _
    cases o with
    | ok b => rfl
    | error e => rfl
  · obtain ⟨o, ho, e, rfl⟩ := h
    have hmem : e ∈ excQueueAfterJoin outcomes := by
      rw [excQueueAfterJoin]
      rw [List.mem_flatten]
      refine ⟨[e], ?_, List.mem_singleton.mpr rfl⟩
      rw [List.mem_map]
      exact ⟨Except.error e, ho, rfl⟩
    have hne : (excQueueAfterJoin outcomes).isEmpty = false := by
      cases hq : excQueueAfterJoin outcomes with
      | nil => rw [hq] at hmem; exact absurd hmem (List.not_mem_nil e)
      | cons a l => rfl
    rw [run_acquisition_fan_in, hne]
    simp

/-- Witness for `worker_fault_aggregated`: two workers, the second faults. -/
theorem worker_fault_aggregated_witness :
    (∃ o ∈ [Except.ok [[(1 : ℚ)]], Except.error "timeout"], ∃ e,
        o = Except.error e) ∧
      (∀ o ∈ [Except.ok [[(1 : ℚ)]], Except.error "timeout"],
          (CardThread.run true o).raised = none) ∧
        run_acquisition_fan_in id [Except.ok [[(1 : ℚ)]], Except.error "timeout"] =
          Except.error "Caught exception from thread during acquisition." :=
  ⟨⟨Except.error "timeout", by simp, "timeout", rfl⟩,
    worker_fault_aggregated id _ ⟨Except.error "timeout", by simp, "timeout", rfl⟩⟩

/-- The externally visible steps of `run_acquisition`, in program order. -/
inductive AcqEvent where
  | configureChannels
  | armCard (i : ℕ)
  | syncEnable
  | startCards
  | launchWorker (i : ℕ)
  | joinWorker (i : ℕ)
  deriving DecidableEq

/-- The straight-line event order of `run_acquisition` (lines 90-328) for `n`
cards: channel configuration, per-card arming, `stack.sync_enable(True)`, the
single `stack.start(M2CMD_CARD_ENABLETRIGGER)` call, then thread starts in
loop order, then joins in loop order.  When `startOk` is false the `start`
call raised and the run aborts before any worker launch. -/
def run_acquisition_trace (n : ℕ) (startOk : Bool) : List AcqEvent :=
  [AcqEvent.configureChannels] ++ (List.range n).map AcqEvent.armCard ++
    [AcqEvent.syncEnable, AcqEvent.startCards] ++
    (if startOk then
      (List.range n).map AcqEvent.launchWorker ++
        (List.range n).map AcqEvent.joinWorker
     else [])

/-- `syncEnable` is not an arming event. -/
theorem syncEnable_not_mem_arm (n : ℕ) :
    AcqEvent.syncEnable ∉ (List.range n).map AcqEvent.armCard := by
  intro h
  rcases List.mem_map.mp h with ⟨j, _, hj⟩
  exact AcqEvent.noConfusion hj

/-- `startCards` is not an arming event. -/
theorem startCards_not_mem_arm (n : ℕ) :
    AcqEvent.startCards ∉ (List.range n).map AcqEvent.armCard := by
  intro h
  rcases List.mem_map.mp h with ⟨j, _, hj⟩
  exact AcqEvent.noConfusion hj

/-- `launchWorker i` is not an arming event. -/
theorem launchWorker_not_mem_arm (n i : ℕ) :
    AcqEvent.launchWorker i ∉ (List.range n).map AcqEvent.armCard := by
  intro h
  rcases List.mem_map.mp h with ⟨j, _, hj⟩
  exact AcqEvent.noConfusion hj

/-- Claim C9: in every run, the synchronization-group enable occurs strictly
before the cross-device start command, and every per-device worker launch
occurs strictly after the start command returned. -/
theorem sync_before_start_before_launch (n i : ℕ) (hi : i < n) :
    (run_acquisition_trace n true).indexOf AcqEvent.syncEnable <
        (run_acquisition_trace n true).indexOf AcqEvent.startCards ∧
      (run_acquisition_trace n true).indexOf AcqEvent.startCards <
        (run_acquisition_trace n true).indexOf (AcqEvent.launchWorker i) := by
  have heq : run_acquisition_trace n true =
      AcqEvent.configureChannels :: ((List.range n).map AcqEvent.armCard ++
        (AcqEvent.syncEnable :: AcqEvent.startCards ::
          ((List.range n).map AcqEvent.launchWorker ++
            (List.range n).map AcqEvent.joinWorker))) := by
    simp [run_acquisition_trace]
  have hsync : (run_acquisition_trace n true).indexOf AcqEvent.syncEnable =
      n + 1 := by
    rw [heq, List.indexOf_cons_ne _ (by decide),
      List.indexOf_append_of_not_mem (syncEnable_not_mem_arm n),
      List.indexOf_cons_self]
    simp
  have hstart : (run_acquisition_trace n true).indexOf AcqEvent.startCards =
      n + 2 := by
    rw [heq, List.indexOf_cons_ne _ (by decide),
      List.indexOf_append_of_not_mem (startCards_not_mem_arm n),
      List.indexOf_cons_ne _ (by decide), List.indexOf_cons_self]
    simp
  have hlaunch : n + 3 ≤
      (run_acquisition_trace n true).indexOf (AcqEvent.launchWorker i) := by
    rw [heq, List.indexOf_cons_ne _ (fun h => AcqEvent.noConfusion h),
      List.indexOf_append_of_not_mem (launchWorker_not_mem_arm n i),
      List.indexOf_cons_ne _ (fun h => AcqEvent.noConfusion h),
      List.indexOf_cons_ne _ (fun h => AcqEvent.noConfusion h)]
    simp
  omega

/-- Witness for `sync_before_start_before_launch`: two cards, worker 1. -/
theorem sync_before_start_before_launch_witness :
    1 < 2 ∧
      (run_acquisition_trace 2 true).indexOf AcqEvent.syncEnable <
          (run_acquisition_trace 2 true).indexOf AcqEvent.startCards ∧
        (run_acquisition_trace 2 true).indexOf AcqEvent.startCards <
          (run_acquisition_trace 2 true).indexOf (AcqEvent.launchWorker 1) :=
  ⟨by norm_num, sync_before_start_before_launch 2 1 (by norm_num)⟩

/-- What a loaded JSON configuration file may supply for the keys of
`parse_args`'s `default_params` dictionary that feed the version check and the
constructed `AcqParams` (helper_functions.py lines 307-335): a key absent from
the file leaves the built-in default in place. -/
structure ConfigDoc where
  cur_version : Option ℤ := none
  trigger_level : Option ℚ := none
  trigger_channel_no : Option ℕ := none
  emission_on_channel_no : Option ℕ := none
  sample_rate : Option ℚ := none
  acquisition_duration : Option ℚ := none
  pre_acquisition_duration : Option ℚ := none
  post_acquisition_duration : Option ℚ := none
  sensitivity_threshold : Option ℚ := none
  card_timeout : Option ℚ := none
  with_crop : Option Bool := none
  with_plot : Option Bool := none
  with_channel_check : Option Bool := none

/-- `parse_args` (helper_functions.py lines 286-415): merge the configuration
file (if one was provided and readable) over the built-in defaults — whose
`cur_version` is 1 — then fail if the merged `cur_version` is below 2, else
build the `AcqParams`.  Fields the Python constructor call does not pass
(`post_acquisition_duration`, `target_file_name`, `cur_version`) keep the
`AcqParams` class defaults. -/
def parse_args (config : Option ConfigDoc) : Except String AcqParams :=
  let cfg := config.getD {}
  let merged_version : ℤ := (cfg.cur_version).getD 1
  if merged_version < 2 then
    Except.error
      "The current version of the acquisition parameters is outdated. Please update to the latest version."
  else
    Except.ok
      { card_timeout := cfg.card_timeout.getD 25
        trigger_level := cfg.trigger_level.getD 2
        trigger_channel_no := cfg.trigger_channel_no.getD 0
        emission_on_channel_no := cfg.emission_on_channel_no.getD 1
        sample_rate := cfg.sample_rate.getD 2
        acquisition_duration := cfg.acquisition_duration.getD 20
        pre_acquisition_duration := cfg.pre_acquisition_duration.getD 1
        sensitivity_threshold := cfg.sensitivity_threshold.getD (6/5)
        with_crop := cfg.with_crop.getD true
        with_plot := cfg.with_plot.getD true
        with_channel_check := cfg.with_channel_check.getD false }

/-- Claim C10: whenever the loaded configuration does not supply
`cur_version ≥ 2` — including when no configuration file is given, since the
built-in default is 1 — `parse_args` raises the fatal outdated-version error
and never returns an `AcqParams`. -/
theorem parse_args_version_gate (config : Option ConfigDoc)
    (h : ∀ v, (config.bind ConfigDoc.cur_version) = some v → v < 2) :
    parse_args config =
      Except.error
        "The current version of the acquisition parameters is outdated. Please update to the latest version." := by
  rw [parse_args]
  cases config with
  | none => simp
  | some cfg =>
      cases hv : cfg.cur_version with
      | none => simp [Option.getD, hv]
      | some v =>
          have := h v (by simp [hv])
          simp [Option.getD, hv, this]

/-- Witness for `parse_args_version_gate`: no configuration file at all. -/
theorem parse_args_version_gate_witness :
    (∀ v, ((none : Option ConfigDoc).bind ConfigDoc.cur_version) = some v →
        v < 2) ∧
      parse_args none =
        Except.error
          "The current version of the acquisition parameters is outdated. Please update to the latest version." :=
  ⟨fun v hv => Option.noConfusion hv,
    parse_args_version_gate none (fun v hv => Option.noConfusion hv)⟩

/-- NaN-propagating addition on `Option ℝ` (`none` is NaN). -/
def nadd : Option ℝ → Option ℝ → Option ℝ
  | some a, some b => some (a + b)
  | _, _ => none

/-- NaN-propagating subtraction on `Option ℝ`. -/
def nsub : Option ℝ → Option ℝ → Option ℝ
  | some a, some b => some (a - b)
  | _, _ => none

/-- NaN-propagating multiplication on `Option ℝ`. -/
def nmul : Option ℝ → Option ℝ → Option ℝ
  | some a, some b => some (a * b)
  | _, _ => none

/-- NaN-propagating division on `Option ℝ`.  A zero denominator yields `none`:
in the `detect_dissimilar_channels` pipeline every zero denominator comes with
a zero numerator, where IEEE gives `0.0 / 0.0 = nan`. -/
noncomputable def ndiv : Option ℝ → Option ℝ → Option ℝ
  | some a, some b => if b = 0 then none else some (a / b)
  | _, _ => none

/-- NaN-propagating square root on `Option ℝ`. -/
noncomputable def nsqrt (x : Option ℝ) : Option ℝ := x.map Real.sqrt

/-- NaN-propagating sum of an indexed family (as NumPy sums, any NaN term
makes the sum NaN). -/
def nsum : (m : ℕ) → (Fin m → Option ℝ) → Option ℝ
  | 0, _ => some 0
  | m + 1, f => nadd (f 0) (nsum m (fun i => f i.succ))

/-- `np.mean` over an indexed family with NaN propagation (the mean of an
empty family is NaN). -/
noncomputable def nmean (m : ℕ) (f : Fin m → Option ℝ) : Option ℝ :=
  ndiv (nsum m f) (some (m : ℝ))

/-- Real division with a NaN result on a zero denominator, for
`scipy.stats.zscore`, whose denominator-zero entries are `0.0 / 0.0 = nan`. -/
noncomputable def rdiv (a b : ℝ) : Option ℝ := if b = 0 then none else some (a / b)

/-- The mean of a real waveform across samples. -/
noncomputable def rmean (s : ℕ) (x : Fin s → ℝ) : ℝ := (∑ j, x j) / s

/-- The population standard deviation (`ddof = 0`) of a real waveform. -/
noncomputable def rstd (s : ℕ) (x : Fin s → ℝ) : ℝ :=
  Real.sqrt ((∑ j, (x j - rmean s x) ^ 2) / s)

/-- `scipy.stats.zscore(data, axis=1)` applied to one channel waveform:
`(x - mean) / std` elementwise; a constant waveform has `std = 0` and every
entry becomes `0.0 / 0.0 = nan`. -/
noncomputable def zscore_row (s : ℕ) (x : Fin s → ℝ) : Fin s → Option ℝ :=
  fun j => rdiv (x j - rmean s x) (rstd s x)

/-- NaN-propagating dot product. -/
noncomputable def ndot (s : ℕ) (u v : Fin s → Option ℝ) : Option ℝ :=
  nsum s (fun j => nmul (u j) (v j))

/-- `scipy.spatial.distance.cosine`: `1 - u.v / (‖u‖ ‖v‖)`. -/
noncomputable def cosine_distance (s : ℕ) (u v : Fin s → Option ℝ) : Option ℝ :=
  nsub (some 1)
    (ndiv (ndot s u v) (nmul (nsqrt (ndot s u u)) (nsqrt (ndot s v v))))

/-- `squareform(pdist(data_norm, metric="cosine"))`: zero diagonal, cosine
distance off the diagonal. -/
noncomputable def dist_matrix (s n : ℕ) (rows : Fin n → Fin s → Option ℝ) :
    Fin n → Fin n → Option ℝ :=
  fun i j => if i = j then some 0 else cosine_distance s (rows i) (rows j)

/-- `scipy.stats.zscore` over the per-channel average distances (NaN aware). -/
noncomputable def zscore_vec (n : ℕ) (x : Fin n → Option ℝ) : Fin n → Option ℝ :=
  fun i =>
    ndiv (nsub (x i) (nmean n x))
      (nsqrt (nmean n (fun k =>
        nmul (nsub (x k) (nmean n x)) (nsub (x k) (nmean n x)))))

/-- `np.abs(z) > threshold` with NumPy's NaN comparison semantics: any
comparison against NaN is false. -/
noncomputable def nabs_gt (x : Option ℝ) (t : ℚ) : Bool :=
  match x with
  | none => false
  | some v => decide (|v| > (t : ℝ))

/-- `detect_dissimilar_channels` from `helper_functions.py` (lines 51-76).
`data` is the (samples x channels) matrix; the function transposes it, z-score
normalizes every channel waveform, takes pairwise cosine distances, averages
each channel's distances, z-scores those averages, thresholds with
`sensitivity_threshold`, and finally overwrites the trigger and emission
channels with `-1`. -/
noncomputable def detect_dissimilar_channels (s n : ℕ) (data : Fin s → Fin n → ℝ)
    (p : AcqParams) (ht : p.trigger_channel_no < n)
    (he : p.emission_on_channel_no < n) : Fin n → ℤ :=
  let rows : Fin n → Fin s → Option ℝ := fun c => zscore_row s (fun j => data j c)
  let avg_dists : Fin n → Option ℝ :=
    fun i => nmean n (fun j => dist_matrix s n rows i j)
  let zscores : Fin n → Option ℝ := zscore_vec n avg_dists
  let outliers : Fin n → ℤ :=
    fun i => if nabs_gt (zscores i) p.sensitivity_threshold then 1 else 0
  Function.update
    (Function.update outliers ⟨p.trigger_channel_no, ht⟩ (-1))
    ⟨p.emission_on_channel_no, he⟩ (-1)

/-- Claim C5: the configured trigger and emission channels are always flagged
`-1` ("excluded"), never `1` ("dissimilar"), whatever the data. -/
theorem detect_excludes_trigger_and_emission (s n : ℕ)
    (data : Fin s → Fin n → ℝ) (p : AcqParams)
    (ht : p.trigger_channel_no < n) (he : p.emission_on_channel_no < n) :
    detect_dissimilar_channels s n data p ht he ⟨p.trigger_channel_no, ht⟩ = -1 ∧
      detect_dissimilar_channels s n data p ht he
        ⟨p.emission_on_channel_no, he⟩ = -1 := by
  constructor
  · rw [detect_dissimilar_channels]
    by_cases hte : (⟨p.trigger_channel_no, ht⟩ : Fin n) =
        ⟨p.emission_on_channel_no, he⟩
    · rw [hte, Function.update_same]
    · rw [Function.update_noteq hte, Function.update_same]
  · rw [detect_dissimilar_channels, Function.update_same]

/-- Witness for `detect_excludes_trigger_and_emission`: three all-zero
channels with the default trigger channel 0 and emission channel 1. -/
theorem detect_excludes_trigger_and_emission_witness :
    (({} : AcqParams).trigger_channel_no < 3 ∧
        ({} : AcqParams).emission_on_channel_no < 3) ∧
      detect_dissimilar_channels 2 3 (fun _ _ => 0) {} (by decide) (by decide)
          ⟨({} : AcqParams).trigger_channel_no, by decide⟩ = -1 ∧
        detect_dissimilar_channels 2 3 (fun _ _ => 0) {} (by decide) (by decide)
          ⟨({} : AcqParams).emission_on_channel_no, by decide⟩ = -1 :=
  ⟨⟨by decide, by decide⟩,
    detect_excludes_trigger_and_emission 2 3 (fun _ _ => 0) {} (by decide)
      (by decide)⟩

/-- NaN absorbs on the left of addition. -/
theorem nadd_none_left (x : Option ℝ) : nadd none x = none := by cases x <;> rfl

/-- NaN absorbs on the right of addition. -/
theorem nadd_none_right (x : Option ℝ) : nadd x none = none := by cases x <;> rfl

/-- NaN absorbs on the left of subtraction. -/
theorem nsub_none_left (x : Option ℝ) : nsub none x = none := by cases x <;> rfl

/-- NaN absorbs on the left of division. -/
theorem ndiv_none_left (x : Option ℝ) : ndiv none x = none := by cases x <;> rfl

/-- NaN absorbs on the right of division. -/
theorem ndiv_none_right (x : Option ℝ) : ndiv x none = none := by cases x <;> rfl

/-- Division of present values with a zero denominator is NaN. -/
theorem ndiv_some_zero (a : ℝ) : ndiv (some a) (some 0) = none := by
  simp [ndiv]

/-- Division of present values with a nonzero denominator. -/
theorem ndiv_some_ne (a b : ℝ) (hb : b ≠ 0) :
    ndiv (some a) (some b) = some (a / b) := by
  simp [ndiv, hb]

/-- A NaN-free family sums to the sum of its values. -/
theorem nsum_all_some : ∀ (m : ℕ) (f : Fin m → Option ℝ) (g : Fin m → ℝ),
    (∀ i, f i = some (g i)) → nsum m f = some (∑ i, g i) := by
  intro m
  induction m with
  | zero => intro f g _; simp [nsum]
  | succ k ih =>
      intro f g h
      rw [nsum, h 0, ih (fun i => f i.succ) (fun i => g i.succ)
        (fun i => h i.succ)]
      simp [nadd, Fin.sum_univ_succ]

/-- A family with a NaN member sums to NaN. -/
theorem nsum_none : ∀ (m : ℕ) (f : Fin m → Option ℝ) (i : Fin m),
    f i = none → nsum m f = none := by
  intro m
  induction m with
  | zero => intro f i; exact i.elim0
  | succ k ih =>
      intro f i h
      by_cases hi : i = 0
      · rw [nsum, ← hi, h, nadd_none_left]
      · rw [nsum, ih (fun j => f j.succ) (i.pred hi)
          (by show f (i.pred hi).succ = none; rw [Fin.succ_pred]; exact h),
          nadd_none_right]

/-- A z-scored waveform with zero standard deviation is all NaN
(`0.0 / 0.0`). -/
theorem zscore_row_none (s : ℕ) (x : Fin s → ℝ) (h : rstd s x = 0)
    (j : Fin s) : zscore_row s x j = none := by
  simp [zscore_row, rdiv, h]

/-- A z-scored waveform with nonzero standard deviation. -/
theorem zscore_row_some (s : ℕ) (x : Fin s → ℝ) (h : rstd s x ≠ 0)
    (j : Fin s) :
    zscore_row s x j = some ((x j - rmean s x) / rstd s x) := by
  simp [zscore_row, rdiv, h]

/-- The cosine distance of an all-NaN vector with itself is NaN (for an empty
vector both norms are zero and the quotient is `0.0 / 0.0`). -/
theorem cosine_distance_self_none (s : ℕ) (u : Fin s → Option ℝ)
    (h : ∀ j, u j = none) : cosine_distance s u u = none := by
  cases s with
  | zero =>
      simp [cosine_distance, ndot, nsum, nsqrt, Real.sqrt_zero, nmul, ndiv,
        nsub]
  | succ k =>
      have hdot : ndot (k + 1) u u = none :=
        nsum_none _ _ 0 (by rw [h 0]; rfl)
      rw [cosine_distance, hdot, ndiv_none_left]
      rfl

/-- A nonzero standard deviation forces a nonempty waveform. -/
theorem rstd_ne_zero_imp (s : ℕ) (x : Fin s → ℝ) (h : rstd s x ≠ 0) :
    s ≠ 0 ∧ 0 < (∑ j, (x j - rmean s x) ^ 2) / s := by
  constructor
  · intro hs
    subst hs
    apply h
    simp [rstd]
  · exact Real.sqrt_ne_zero'.mp h

/-- The cosine distance of a z-scored nonconstant waveform with itself is
exactly zero: the normalized dot product of a nonzero vector with itself is
one. -/
theorem cosine_distance_self_zero (s : ℕ) (x : Fin s → ℝ)
    (h : rstd s x ≠ 0) :
    cosine_distance s (zscore_row s x) (zscore_row s x) = some 0 := by
  obtain ⟨hs, hpos⟩ := rstd_ne_zero_imp s x h
  have hsr : (0 : ℝ) < (s : ℝ) := by
    exact_mod_cast Nat.pos_of_ne_zero hs
  set μ := rmean s x with hμ
  set σ := rstd s x with hσdef
  set S := ∑ j, (x j - μ) ^ 2 with hS
  have hσsq : σ * σ = S / s := by
    rw [hσdef, rstd]
    exact Real.mul_self_sqrt (le_of_lt hpos)
  have hSpos : 0 < S := by
    have : S = S / s * s := (div_mul_cancel₀ S (ne_of_gt hsr)).symm
    rw [this]
    exact mul_pos hpos hsr
  have hdot : ndot s (zscore_row s x) (zscore_row s x) =
      some (∑ j, ((x j - μ) / σ) * ((x j - μ) / σ)) := by
    rw [ndot]
    apply nsum_all_some
    intro j
    rw [zscore_row_some s x h]
    rfl
  have hval : (∑ j, ((x j - μ) / σ) * ((x j - μ) / σ)) = (s : ℝ) := by
    have hterm : ∀ j, ((x j - μ) / σ) * ((x j - μ) / σ) =
        (x j - μ) ^ 2 / (σ * σ) := by
      intro j
      rw [div_mul_div_comm, sq]
    calc (∑ j, ((x j - μ) / σ) * ((x j - μ) / σ))
        = ∑ j, (x j - μ) ^ 2 / (σ * σ) := by
          exact Finset.sum_congr rfl (fun j _ => hterm j)
      _ = S / (σ * σ) := by rw [← Finset.sum_div]
      _ = S / (S / s) := by rw [hσsq]
      _ = (s : ℝ) := by
          rw [div_div_eq_mul_div, mul_comm, mul_div_assoc,
            div_self (ne_of_gt hSpos), mul_one]
  rw [cosine_distance, hdot, hval]
  rw [show nsqrt (some ((s : ℕ) : ℝ)) = some (Real.sqrt ((s : ℕ) : ℝ)) from rfl]
  rw [show nmul (some (Real.sqrt ((s : ℕ) : ℝ)))
      (some (Real.sqrt ((s : ℕ) : ℝ))) =
    some (Real.sqrt ((s : ℕ) : ℝ) * Real.sqrt ((s : ℕ) : ℝ)) from rfl]
  rw [Real.mul_self_sqrt (le_of_lt hsr)]
  rw [ndiv_some_ne _ _ (ne_of_gt hsr), div_self (ne_of_gt hsr)]
  rw [show nsub (some (1 : ℝ)) (some (1 : ℝ)) = some (1 - 1) from rfl]
  norm_num

/-- The z-score of a constant NaN-free vector is all NaN: its standard
deviation is zero, so every entry is `0.0 / 0.0`. -/
theorem zscore_vec_const_none (n : ℕ) (hn : n ≠ 0) (a : ℝ) (i : Fin n) :
    zscore_vec n (fun _ => some a) i = none := by
  have hnr : ((n : ℕ) : ℝ) ≠ 0 := Nat.cast_ne_zero.mpr hn
  have hμ : nmean n (fun _ : Fin n => some a) = some a := by
    rw [nmean, nsum_all_some n _ (fun _ => a) (fun _ => rfl),
      ndiv_some_ne _ _ hnr]
    congr 1
    rw [Finset.sum_const, Finset.card_univ, Fintype.card_fin, nsmul_eq_mul]
    field_simp
  simp only [zscore_vec]
  rw [hμ]
  have h0 : nsub (some a) (some a) = some 0 := by simp [nsub]
  rw [h0]
  have h1 : nmul (some (0 : ℝ)) (some 0) = some 0 := by simp [nmul]
  rw [h1]
  have h2 : nmean n (fun _ : Fin n => some (0 : ℝ)) = some 0 := by
    rw [nmean, nsum_all_some n _ (fun _ => 0) (fun _ => rfl),
      ndiv_some_ne _ _ hnr]
    simp
  rw [h2]
  rw [show nsqrt (some (0 : ℝ)) = some (Real.sqrt 0) from rfl, Real.sqrt_zero,
    ndiv_some_zero]

/-- A NaN entry z-scores to NaN. -/
theorem zscore_vec_none_entry (n : ℕ) (x : Fin n → Option ℝ) (i : Fin n)
    (h : x i = none) : zscore_vec n x i = none := by
  simp only [zscore_vec]
  rw [h, nsub_none_left, ndiv_none_left]

/-- Claim C6: when all channel waveforms are equal, no channel other than the
excluded trigger and emission channels is flagged dissimilar.  (All pairwise
distances agree, so the channel scores have zero spread; their z-scores are
NaN, and a NaN never exceeds the threshold.) -/
theorem detect_identical_channels_not_dissimilar (s n : ℕ)
    (data : Fin s → Fin n → ℝ) (p : AcqParams)
    (ht : p.trigger_channel_no < n) (he : p.emission_on_channel_no < n)
    (hEq : ∀ (j : Fin s) (c c' : Fin n), data j c = data j c') (i : Fin n)
    (hit : i ≠ ⟨p.trigger_channel_no, ht⟩)
    (hie : i ≠ ⟨p.emission_on_channel_no, he⟩) :
    detect_dissimilar_channels s n data p ht he i ≠ 1 := by
  have hn2 : 2 ≤ n := by
    have hv : i.val ≠ p.trigger_channel_no := fun hv => hit (Fin.ext hv)
    have hlt := i.2
    omega
  have hn0 : n ≠ 0 := by omega
  have hnr : ((n : ℕ) : ℝ) ≠ 0 := Nat.cast_ne_zero.mpr hn0
  simp only [detect_dissimilar_channels]
  rw [Function.update_noteq hie, Function.update_noteq hit]
  have hrows : (fun c : Fin n => zscore_row s (fun j => data j c)) =
      (fun _ : Fin n => zscore_row s (fun j => data j i)) := by
    funext c
    have hcol : (fun j => data j c) = (fun j => data j i) :=
      funext (fun j => hEq j c i)
    rw [hcol]
  rw [hrows]
  set x : Fin s → ℝ := fun j => data j i with hxdef
  by_cases hσ : rstd s x = 0
  · have hdm : ∀ a b : Fin n,
        dist_matrix s n (fun _ => zscore_row s x) a b =
          if a = b then some 0 else none := by
      intro a b
      rw [dist_matrix]
      by_cases hab : a = b
      · simp [hab]
      · simp only [if_neg hab]
        exact cosine_distance_self_none s _ (zscore_row_none s x hσ)
    have havg : nmean n
        (fun j => dist_matrix s n (fun _ => zscore_row s x) i j) = none := by
      have : Nontrivial (Fin n) := Fin.nontrivial_iff_two_le.mpr hn2
      obtain ⟨b, hb⟩ := exists_ne i
      rw [nmean, nsum_none n _ b
        (by rw [hdm i b, if_neg (fun hab => hb hab.symm)]), ndiv_none_left]
    rw [zscore_vec_none_entry n _ i havg]
    simp [nabs_gt]
  · have hdm : ∀ a b : Fin n,
        dist_matrix s n (fun _ => zscore_row s x) a b = some 0 := by
      intro a b
      rw [dist_matrix]
      by_cases hab : a = b
      · simp [hab]
      · simp only [if_neg hab]
        exact cosine_distance_self_zero s x hσ
    have havg : (fun a : Fin n => nmean n
        (fun j => dist_matrix s n (fun _ => zscore_row s x) a j)) =
        (fun _ : Fin n => some (0 : ℝ)) := by
      funext a
      rw [nmean, nsum_all_some n _ (fun _ => 0) (fun b => hdm a b),
        ndiv_some_ne _ _ hnr]
      simp
    rw [havg, zscore_vec_const_none n hn0 0 i]
    simp [nabs_gt]

/-- Witness for `detect_identical_channels_not_dissimilar`: three identical
all-zero channels of two samples; channel 2 (neither trigger 0 nor emission 1)
is not flagged dissimilar. -/
theorem detect_identical_channels_not_dissimilar_witness :
    (({} : AcqParams).trigger_channel_no < 3 ∧
        ({} : AcqParams).emission_on_channel_no < 3 ∧
        (∀ (j : Fin 2) (c c' : Fin 3), (0 : ℝ) = 0) ∧
        (2 : Fin 3) ≠ ⟨({} : AcqParams).trigger_channel_no, by decide⟩ ∧
        (2 : Fin 3) ≠ ⟨({} : AcqParams).emission_on_channel_no, by decide⟩) ∧
      detect_dissimilar_channels 2 3 (fun _ _ => 0) {} (by decide) (by decide)
        2 ≠ 1 :=
  ⟨⟨by decide, by decide, fun _ _ _ => rfl, by decide, by decide⟩,
    detect_identical_channels_not_dissimilar 2 3 (fun _ _ => 0) {} (by decide)
      (by decide) (fun _ _ _ => rfl) 2 (by decide) (by decide)⟩
